import Mathlib

/-!
Verification of the serenemind-io task-planning backend
(`backend/tasks/models.py` and `backend/tasks/views.py`).

The Django models are embedded as plain Lean structures, the database as a
record of lists of rows plus a fresh-id counter (Django auto primary keys),
and each view / model method that the claims mention as a pure function from
a database state (plus request parameters) to a new state and a response.
Dates and timestamps are opaque `Nat` values; weekday values are the strings
stored by the `ArrayField` of `CharField` choices.  Python floats in the
analytics view are modelled by exact rationals (the values the claims
mention, 40.00 and 0, are exact in both representations), and Python's
`round(x, 2)` (round-half-to-even) is modelled exactly on rationals.
-/

namespace SereneMind

/-- Model of `tasks.models.Task`: master task library row. -/
structure Task where
  id : Nat
  user : Nat
  title : String
  deriving DecidableEq

/-- Model of `tasks.models.Template`: daily task template row; `weekdays` is the
`ArrayField` of weekday-name strings. -/
structure Template where
  id : Nat
  user : Nat
  title : String
  weekdays : List String
  deriving DecidableEq

/-- Model of `tasks.models.TemplateTask`: join row binding a Task into a Template at
a given `order`. -/
structure TemplateTask where
  id : Nat
  template : Nat
  task : Nat
  order : Nat
  deriving DecidableEq

/-- Model of `tasks.models.DailyTaskList`: one materialized schedule per (user, date). -/
structure DailyTaskList where
  id : Nat
  user : Nat
  date : Nat
  template : Nat
  deriving DecidableEq

/-- Model of `tasks.models.DailyTask`: a concrete daily task instance (templated or
adhoc). -/
structure DailyTask where
  id : Nat
  user : Nat
  daily_task_list : Option Nat
  template_task : Option Nat
  title : String
  due_date : Nat
  completed : Bool
  completed_at : Option Nat
  order : Nat
  is_adhoc : Bool
  deriving DecidableEq

/-- The relational store: one list of rows per model plus the auto-id
counter shared by all tables (fresh primary keys are strictly increasing). -/
structure DB where
  tasks : List Task
  templates : List Template
  templateTasks : List TemplateTask
  dailyTaskLists : List DailyTaskList
  dailyTasks : List DailyTask
  nextId : Nat
  deriving DecidableEq

/-- Model of `template_task.task.title`: follow the foreign key from a TemplateTask's
`task` id to the Task row and read its title. -/
def taskTitle (db : DB) (taskId : Nat) : String :=
  ((db.tasks.find? (fun t => t.id == taskId)).map (fun t => t.title)).getD ""

/-- Model of the `weekdays__overlap` lookup: the two weekday arrays share at least one day. -/
def weekdayOverlap (a b : List String) : Bool :=
  a.any (fun d => b.contains d)

/-- The queryset of `Template.clean`: templates of the same user, excluding
`self`, whose weekday array overlaps `self.weekdays`. -/
def conflictingTemplates (db : DB) (t : Template) : List Template :=
  db.templates.filter (fun u =>
    u.user == t.user && u.id != t.id && weekdayOverlap u.weekdays t.weekdays)

/-- The `conflicting_days` accumulation of `Template.clean`: for each
conflicting template, the days it shares with `self.weekdays`. -/
def conflictingDays (db : DB) (t : Template) : List String :=
  (conflictingTemplates db t).foldl
    (fun acc u => acc ++ t.weekdays.filter (fun d => u.weekdays.contains d)) []

/-- Model of `Template.clean`: `none` when the template passes the weekday-exclusivity
check, `some days` when a ValidationError naming `days` is raised.  The check
is skipped entirely when `self.weekdays` is empty (Python falsiness of the
empty list). -/
def templateClean (db : DB) (t : Template) : Option (List String) :=
  if t.weekdays.isEmpty then none
  else if (conflictingTemplates db t).isEmpty then none
  else some (conflictingDays db t)

/-- Model of `self.template.template_tasks.all().order_by('order')`: the template's
join rows sorted ascending by their `order` field. -/
def templateTasksOf (db : DB) (templateId : Nat) : List TemplateTask :=
  List.insertionSort (fun a b => a.order ≤ b.order)
    (db.templateTasks.filter (fun tt => tt.template == templateId))

/-- The row built by one iteration of `DailyTaskList._create_daily_tasks`:
user inherited from the list, title copied from the source Task, due date
the list's date, gap-based order `template_task.order * 10`, not adhoc, not
completed.  `db0` is the store the loop reads titles from (its `tasks` table
is never written during the loop). -/
def mkDailyTask (db0 : DB) (l : DailyTaskList) (tt : TemplateTask) (id : Nat) :
    DailyTask :=
  { id := id
    user := l.user
    daily_task_list := some l.id
    template_task := some tt.id
    title := taskTitle db0 tt.task
    due_date := l.date
    completed := false
    completed_at := none
    order := tt.order * 10
    is_adhoc := false }

/-- One `DailyTask.objects.create(...)` call of the materialization loop:
append the new row and advance the id counter. -/
def dailyTaskStep (db0 : DB) (l : DailyTaskList) (acc : DB) (tt : TemplateTask) :
    DB :=
  { acc with
    dailyTasks := acc.dailyTasks ++ [mkDailyTask db0 l tt acc.nextId]
    nextId := acc.nextId + 1 }

/-- Model of `DailyTaskList._create_daily_tasks`: iterate the template's join rows in
ascending `order` and create one DailyTask per row. -/
def createDailyTasks (db : DB) (l : DailyTaskList) : DB :=
  (templateTasksOf db l.template).foldl (dailyTaskStep db l) db

/-- The response alternatives of `DailyTaskListCreateView.post`, one per
`JsonResponse` branch of the source; `status` below records the HTTP status
attached to each. -/
inductive MatResp where
  | created (listId : Nat)
  | errDateRequired
  | errTemplateIdRequired
  | errAlreadyExists
  | errTemplateNotFound
  | errValidation (msg : String)
  deriving DecidableEq

/-- The HTTP status code each branch of `DailyTaskListCreateView.post`
returns. -/
def MatResp.status : MatResp → Nat
  | .created _ => 201
  | .errDateRequired => 400
  | .errTemplateIdRequired => 400
  | .errAlreadyExists => 400
  | .errTemplateNotFound => 404
  | .errValidation _ => 400

/-- Model of `DailyTaskListCreateView.post`: parameter checks, the per-user duplicate
date check, the owner-scoped template lookup (404 when absent or owned by
another user), then `DailyTaskList.objects.create` whose `save` re-checks
template ownership and expands the template.  A `templateId?` of `some 0` is
rejected like a missing one (`if not template_id` — Python falsiness of 0;
Django primary keys start at 1). -/
def dailyTaskListCreatePost (db : DB) (user : Nat) (date? : Option Nat)
    (templateId? : Option Nat) : DB × MatResp :=
  match date? with
  | none => (db, .errDateRequired)
  | some date =>
    match templateId? with
    | none => (db, .errTemplateIdRequired)
    | some tid =>
      if tid == 0 then (db, .errTemplateIdRequired)
      else if db.dailyTaskLists.any (fun l => l.user == user && l.date == date) then
        (db, .errAlreadyExists)
      else
        match db.templates.find? (fun t => t.id == tid && t.user == user) with
        | none => (db, .errTemplateNotFound)
        | some tmpl =>
          if tmpl.user != user then
            (db, .errValidation "Cannot use a template from another user.")
          else
            let l : DailyTaskList :=
              { id := db.nextId, user := user, date := date, template := tmpl.id }
            let db1 : DB :=
              { db with
                dailyTaskLists := db.dailyTaskLists ++ [l]
                nextId := db.nextId + 1 }
            (createDailyTasks db1 l, .created l.id)

/-- Models `DailyTaskList.save` followed by `_create_daily_tasks` when the
insert of the daily task at 0-based index `failAt` of the ascending
expansion raises a storage error.  Nothing in the source wraps the operation
in a transaction (no `transaction.atomic` import or call anywhere in the
app; Django's default autocommit commits every `create` individually), so
the list row and the tasks created before the failing index stay committed.
Returns the committed state at the moment the exception propagates. -/
def materializeFailingAt (db : DB) (user date templateId failAt : Nat) : DB :=
  let l : DailyTaskList :=
    { id := db.nextId, user := user, date := date, template := templateId }
  let db1 : DB :=
    { db with
      dailyTaskLists := db.dailyTaskLists ++ [l]
      nextId := db.nextId + 1 }
  ((templateTasksOf db1 templateId).take failAt).foldl (dailyTaskStep db1 l) db1

/-- Model of `DailyTask.mark_complete`. -/
def markComplete (t : DailyTask) (now : Nat) : DailyTask :=
  { t with completed := true, completed_at := some now }

/-- Model of `DailyTask.mark_incomplete`. -/
def markIncomplete (t : DailyTask) : DailyTask :=
  { t with completed := false, completed_at := none }

/-- Model of `task.save()`: overwrite the stored row that has this instance's primary
key. -/
def updateTask (db : DB) (t : DailyTask) : DB :=
  { db with dailyTasks := db.dailyTasks.map (fun u => if u.id == t.id then t else u) }

/-- The `Max('order')` aggregate of the views, already collapsed with the
`(max_order or 0)` idiom of the source (a `None` aggregate over an empty
queryset and a maximum of 0 both yield 0): greatest `order` among the user's
incomplete adhoc tasks, 0 when there are none. -/
def maxIncompleteAdhocOrder (db : DB) (user : Nat) : Nat :=
  (db.dailyTasks.filter (fun t => t.user == user && t.is_adhoc && !t.completed)).foldl
    (fun m t => max m t.order) 0

/-- Model of `DailyTaskCompleteView.post`: owner-scoped lookup (`none` = 404), zero
the order first when the task is adhoc, then `mark_complete`. -/
def dailyTaskCompletePost (db : DB) (user pk now : Nat) : DB × Option DailyTask :=
  match db.dailyTasks.find? (fun t => t.id == pk && t.user == user) with
  | none => (db, none)
  | some task =>
    let task1 := if task.is_adhoc then { task with order := 0 } else task
    let task2 := markComplete task1 now
    (updateTask db task2, some task2)

/-- Model of `DailyTaskIncompleteView.post`: owner-scoped lookup (`none` = 404),
`mark_incomplete()` (which saves), then — for adhoc tasks — the Max
aggregate over the *already updated* store (so the freshly reopened task is
itself inside the aggregate's queryset) and a final save. -/
def dailyTaskIncompletePost (db : DB) (user pk : Nat) : DB × Option DailyTask :=
  match db.dailyTasks.find? (fun t => t.id == pk && t.user == user) with
  | none => (db, none)
  | some task =>
    let task1 := markIncomplete task
    let db1 := updateTask db task1
    let task2 :=
      if task1.is_adhoc then
        { task1 with order := maxIncompleteAdhocOrder db1 user + 10 }
      else task1
    (updateTask db1 task2, some task2)

/-- One entry of the `tasks` payload of the template create/update views:
`task_id` and `order` as sent by the client (either may be absent). -/
structure TaskPayload where
  task_id : Option Nat
  order : Option Nat
  deriving DecidableEq

/-- One daily task row under the `on_delete=SET_NULL` cascade from
TemplateTask: its `template_task` back-reference is cleared when it points
at one of the deleted join-row ids `deadIds`; nothing else changes. -/
def clearRef (deadIds : List Nat) (dt : DailyTask) : DailyTask :=
  match dt.template_task with
  | some ttid => if deadIds.contains ttid then { dt with template_task := none } else dt
  | none => dt

/-- Model of the `on_delete=SET_NULL` cascade from TemplateTask to DailyTask: clear the
`template_task` back-reference of every daily task pointing at one of the
deleted join-row ids `deadIds`. -/
def setNullTemplateTask (deadIds : List Nat) (dts : List DailyTask) :
    List DailyTask :=
  dts.map (clearRef deadIds)

/-- The TemplateTask-recreation loop of `TemplateDetailView.put`: for each
payload entry, reject a missing/zero `task_id` or missing `order` (Python
falsiness — `if not task_id or order is None`), 404 when the task does not
exist for this user, otherwise `TemplateTask.objects.create` with a fresh
primary key.  `false` means the request errored at that entry; rows created
before the error stay (no transaction in the source). -/
def createTemplateTasksLoop (user templateId : Nat) :
    List TaskPayload → DB → DB × Bool
  | [], db => (db, true)
  | p :: rest, db =>
    match p.task_id, p.order with
    | none, _ => (db, false)
    | some _, none => (db, false)
    | some tid, some ord =>
      if tid == 0 then (db, false)
      else
        match db.tasks.find? (fun t => t.id == tid && t.user == user) with
        | none => (db, false)
        | some _ =>
          createTemplateTasksLoop user templateId rest
            { db with
              templateTasks :=
                db.templateTasks ++ [⟨db.nextId, templateId, tid, ord⟩]
              nextId := db.nextId + 1 }

/-- Model of `TemplateDetailView.put` for a request whose body supplies only a
`tasks` payload (no `title`, no `weekdays`): owner-scoped template lookup
(`false` = 404), `template.save()` re-running `full_clean` on the unchanged
fields, then *unconditional* deletion of all existing TemplateTask rows of
the template (with the SET_NULL cascade onto daily tasks) followed by
recreation from the payload with fresh primary keys. -/
def templatePutTasks (db : DB) (user pk : Nat) (payload : List TaskPayload) :
    DB × Bool :=
  match db.templates.find? (fun t => t.id == pk && t.user == user) with
  | none => (db, false)
  | some tmpl =>
    match templateClean db tmpl with
    | some _ => (db, false)
    | none =>
      let deadIds :=
        (db.templateTasks.filter (fun tt => tt.template == pk)).map (fun tt => tt.id)
      let db1 : DB :=
        { db with
          templateTasks := db.templateTasks.filter (fun tt => tt.template != pk)
          dailyTasks := setNullTemplateTask deadIds db.dailyTasks }
      createTemplateTasksLoop user pk payload db1

/-- Model of `TaskDetailView.delete`: owner-scoped lookup (`false` = 404), then
`task.delete()` — the Task row goes, every TemplateTask referencing it is
cascade-deleted, and the `template_task` back-reference of daily tasks
pointing at those join rows is set to null (`on_delete=SET_NULL`).  Daily
task rows themselves are untouched. -/
def taskDelete (db : DB) (user pk : Nat) : DB × Bool :=
  match db.tasks.find? (fun t => t.id == pk && t.user == user) with
  | none => (db, false)
  | some _ =>
    let deadIds :=
      (db.templateTasks.filter (fun tt => tt.task == pk)).map (fun tt => tt.id)
    ({ db with
       tasks := db.tasks.filter (fun t => t.id != pk)
       templateTasks := db.templateTasks.filter (fun tt => tt.task != pk)
       dailyTasks := setNullTemplateTask deadIds db.dailyTasks }, true)

/-- Model of `TemplateDetailView.delete`: owner-scoped lookup (`false` = 404); the
`on_delete=PROTECT` of `DailyTaskList.template` makes `template.delete()`
raise `ProtectedError` — caught and turned into a 400 response with no write
— whenever any DailyTaskList references the template; otherwise the template
row goes, its TemplateTask rows cascade, and daily-task back-references to
those rows are nulled. -/
def templateDelete (db : DB) (user pk : Nat) : DB × Bool :=
  match db.templates.find? (fun t => t.id == pk && t.user == user) with
  | none => (db, false)
  | some _ =>
    if db.dailyTaskLists.any (fun l => l.template == pk) then (db, false)
    else
      let deadIds :=
        (db.templateTasks.filter (fun tt => tt.template == pk)).map (fun tt => tt.id)
      ({ db with
         templates := db.templates.filter (fun t => t.id != pk)
         templateTasks := db.templateTasks.filter (fun tt => tt.template != pk)
         dailyTasks := setNullTemplateTask deadIds db.dailyTasks }, true)

/-- Model of `DailyTask.objects.filter(template_task=tt).count()` of the analytics
view: daily tasks generated from the given TemplateTask, regardless of list
or date. -/
def statsTotal (db : DB) (ttid : Nat) : Nat :=
  db.dailyTasks.countP (fun dt => dt.template_task == some ttid)

/-- Model of `daily_tasks.filter(completed=True).count()` of the analytics view. -/
def statsCompleted (db : DB) (ttid : Nat) : Nat :=
  db.dailyTasks.countP (fun dt => dt.template_task == some ttid && dt.completed)

/-- Python's `round` to the nearest integer, ties to even (banker's
rounding), on exact rationals. -/
def pyRoundInt (q : Rat) : Int :=
  let f := Int.floor q
  let r := q - f
  if r < 1/2 then f
  else if 1/2 < r then f + 1
  else if f % 2 = 0 then f else f + 1

/-- Python's `round(x, 2)` on exact rationals. -/
def pyRound2 (q : Rat) : Rat :=
  (pyRoundInt (q * 100) : Rat) / 100

/-- Model of `(completed / total * 100) if total > 0 else 0` of the analytics view,
on exact rationals. -/
def completionRateOf (completed total : Nat) : Rat :=
  if 0 < total then (completed : Rat) / (total : Rat) * 100 else 0

/-- One entry of the `TaskCompletionStatsView` response. -/
structure StatEntry where
  template : String
  task : String
  total_instances : Nat
  completed_instances : Nat
  completion_rate : Rat
  deriving DecidableEq

/-- The stats entry the view builds for one TemplateTask of one Template. -/
def statEntryFor (db : DB) (tmpl : Template) (tt : TemplateTask) : StatEntry :=
  { template := tmpl.title
    task := taskTitle db tt.task
    total_instances := statsTotal db tt.id
    completed_instances := statsCompleted db tt.id
    completion_rate := pyRound2 (completionRateOf (statsCompleted db tt.id) (statsTotal db tt.id)) }

/-- Model of `TaskCompletionStatsView.get`: for every Template of the user (the
queryset's `Meta.ordering` sorts by title) and every TemplateTask of that
template (related manager ordered by `order`), one entry with the total /
completed counts over all daily tasks whose back-reference equals that
TemplateTask, and the rounded completion rate. -/
def taskCompletionStats (db : DB) (user : Nat) : List StatEntry :=
  (List.insertionSort (fun a b => a.title ≤ b.title)
      (db.templates.filter (fun t => t.user == user))).flatMap
    (fun tmpl => (templateTasksOf db tmpl.id).map (statEntryFor db tmpl))

/-! ### Helper lemmas -/

theorem mem_foldl_append {α β : Type} (f : β → List α) (l : List β) :
    ∀ (acc : List α) (x : α),
      (x ∈ l.foldl (fun acc u => acc ++ f u) acc ↔ x ∈ acc ∨ ∃ u ∈ l, x ∈ f u) := by
  induction l with
  | nil => simp
  | cons u rest ih =>
    intro acc x
    rw [List.foldl_cons, ih]
    simp [List.mem_append, or_assoc]

/-! ### C2: template weekday exclusivity -/

/-- Claim C2: for every store and template, the weekday-exclusivity check of
`Template.clean` accepts exactly when no weekday of the template also occurs
in some *other* template of the *same* user (in particular an empty weekday
set is always accepted, and templates of other users never conflict), and
when it rejects, the days named in the ValidationError are exactly the
weekdays of the template that occur in some other same-user template. -/
theorem template_clean_weekday_exclusivity (db : DB) (t : Template) :
    (templateClean db t = none ↔
      ¬ ∃ d ∈ t.weekdays, ∃ u ∈ db.templates,
          u.user = t.user ∧ u.id ≠ t.id ∧ d ∈ u.weekdays)
    ∧ (t.weekdays = [] → templateClean db t = none)
    ∧ ∀ days, templateClean db t = some days →
        ∀ d, (d ∈ days ↔
          d ∈ t.weekdays ∧ ∃ u ∈ db.templates,
            u.user = t.user ∧ u.id ≠ t.id ∧ d ∈ u.weekdays) := by
  have hconf : ∀ u, u ∈ conflictingTemplates db t ↔
      u ∈ db.templates ∧ u.user = t.user ∧ u.id ≠ t.id ∧
        ∃ d ∈ u.weekdays, d ∈ t.weekdays := by
    intro u
    simp [conflictingTemplates, List.mem_filter, weekdayOverlap, List.any_eq_true,
      List.elem_iff, and_assoc]
  have hdays : ∀ d, d ∈ conflictingDays db t ↔
      d ∈ t.weekdays ∧ ∃ u ∈ db.templates,
        u.user = t.user ∧ u.id ≠ t.id ∧ d ∈ u.weekdays := by
    intro d
    unfold conflictingDays
    rw [mem_foldl_append]
    constructor
    · rintro (h | ⟨u, hu, hd⟩)
      · simp at h
      · rcases (hconf u).mp hu with ⟨hmem, huser, hid, -⟩
        rcases List.mem_filter.mp hd with ⟨hdW, hdu⟩
        exact ⟨hdW, u, hmem, huser, hid, by simpa [List.elem_iff] using hdu⟩
    · rintro ⟨hdW, u, hmem, huser, hid, hdu⟩
      right
      refine ⟨u, (hconf u).mpr ⟨hmem, huser, hid, d, hdu, hdW⟩, ?_⟩
      exact List.mem_filter.mpr ⟨hdW, by simpa [List.elem_iff] using hdu⟩
  have hex : (∃ d ∈ t.weekdays, ∃ u ∈ db.templates,
      u.user = t.user ∧ u.id ≠ t.id ∧ d ∈ u.weekdays) ↔
      ¬ (conflictingTemplates db t).isEmpty ∨
        ((conflictingTemplates db t).isEmpty ∧ False) := by
    simp only [List.isEmpty_iff, or_false, and_false]
    constructor
    · rintro ⟨d, hdW, u, hmem, huser, hid, hdu⟩ hempty
      have : u ∈ conflictingTemplates db t :=
        (hconf u).mpr ⟨hmem, huser, hid, d, hdu, hdW⟩
      rw [hempty] at this
      simp at this
    · intro hne
      rcases List.exists_mem_of_ne_nil _ hne with ⟨u, hu⟩
      rcases (hconf u).mp hu with ⟨hmem, huser, hid, d, hdu, hdW⟩
      exact ⟨d, hdW, u, hmem, huser, hid, hdu⟩
  refine ⟨?_, ?_, ?_⟩
  · unfold templateClean
    by_cases hW : t.weekdays.isEmpty
    · simp only [hW, if_pos]
      simp only [List.isEmpty_iff] at hW
      simp [hW]
    · simp only [hW, if_neg, Bool.false_eq_true, not_false_iff, if_false]
      by_cases hc : (conflictingTemplates db t).isEmpty
      · simp only [hc, if_pos, true_iff]
        intro hcontra
        rcases hex.mp hcontra with h | ⟨-, h⟩
        · exact h hc
        · exact h
      · simp only [hc, Bool.false_eq_true, if_false]
        constructor
        · intro h; exact absurd h (by simp)
        · intro h
          exact absurd (hex.mpr (Or.inl (by simpa using hc))) h
  · intro hW
    unfold templateClean
    simp [hW]
  · intro days hsome d
    unfold templateClean at hsome
    by_cases hW : t.weekdays.isEmpty
    · simp [hW] at hsome
    · by_cases hc : (conflictingTemplates db t).isEmpty
      · simp [hW, hc] at hsome
      · simp only [hW, Bool.false_eq_true, if_false, hc, Option.some.injEq] at hsome
        rw [← hsome]
        exact hdays d

/-! ### Concrete stores used by witnesses and counterexamples -/

def exTask1 : Task := { id := 1, user := 1, title := "Meditate" }

def exTask2 : Task := { id := 2, user := 1, title := "Journal" }

def exTmplMorning : Template :=
  { id := 10, user := 1, title := "Morning", weekdays := ["Monday"] }

def exTmplB : Template :=
  { id := 12, user := 1, title := "Second", weekdays := ["Monday", "Tuesday"] }

def exTmplEmpty : Template :=
  { id := 13, user := 1, title := "Unscheduled", weekdays := [] }

def exTT1 : TemplateTask := { id := 20, template := 10, task := 1, order := 1 }

def exTT2 : TemplateTask := { id := 21, template := 10, task := 2, order := 2 }

def exDb : DB :=
  { tasks := [exTask1, exTask2]
    templates := [exTmplMorning]
    templateTasks := [exTT1, exTT2]
    dailyTaskLists := []
    dailyTasks := []
    nextId := 100 }

/-- Claim C2 witness: in a store where user 1 already owns the "Morning"
template on Monday, a second template for Monday+Tuesday is rejected, and an
unscheduled (empty-weekday) template is accepted. -/
theorem template_clean_weekday_exclusivity_witness :
    templateClean exDb exTmplB ≠ none ∧ templateClean exDb exTmplEmpty = none := by
  constructor
  · intro h
    exact (template_clean_weekday_exclusivity exDb exTmplB).1.mp h
      ⟨"Monday", by decide, exTmplMorning, by decide, by decide, by decide, by decide⟩
  · exact (template_clean_weekday_exclusivity exDb exTmplEmpty).2.1 rfl

/-! ### C1: materialization expands the template faithfully -/

/-- The block of rows the materialization loop inserts when started with id
counter `n`: one row per template join row, consecutive ids. -/
def mkRun (db0 : DB) (l : DailyTaskList) : List TemplateTask → Nat → List DailyTask
  | [], _ => []
  | tt :: rest, n => mkDailyTask db0 l tt n :: mkRun db0 l rest (n + 1)

theorem foldl_dailyTaskStep (db0 : DB) (l : DailyTaskList) (tts : List TemplateTask) :
    ∀ acc : DB,
      tts.foldl (dailyTaskStep db0 l) acc =
        { acc with
          dailyTasks := acc.dailyTasks ++ mkRun db0 l tts acc.nextId
          nextId := acc.nextId + tts.length } := by
  induction tts with
  | nil => intro acc; simp [mkRun]
  | cons tt rest ih =>
    intro acc
    rw [List.foldl_cons, ih]
    cases acc
    simp [dailyTaskStep, mkRun]
    omega

theorem mkRun_spec (db0 : DB) (l : DailyTaskList) :
    ∀ (tts : List TemplateTask) (n : Nat),
      List.Forall₂ (fun tt dt =>
        dt.title = taskTitle db0 tt.task ∧ dt.due_date = l.date ∧ dt.user = l.user ∧
        dt.is_adhoc = false ∧ dt.completed = false ∧ dt.completed_at = none ∧
        dt.order = tt.order * 10 ∧ dt.template_task = some tt.id ∧
        dt.daily_task_list = some l.id) tts (mkRun db0 l tts n)
  | [], _ => List.Forall₂.nil
  | tt :: rest, n =>
    List.Forall₂.cons (by simp [mkDailyTask]) (mkRun_spec db0 l rest (n + 1))

theorem templateTasksOf_sorted (db : DB) (tid : Nat) :
    List.Pairwise (fun a b : TemplateTask => a.order ≤ b.order)
      (templateTasksOf db tid) := by
  haveI : IsTotal TemplateTask (fun a b => a.order ≤ b.order) :=
    ⟨fun a b => Nat.le_total _ _⟩
  haveI : IsTrans TemplateTask (fun a b => a.order ≤ b.order) :=
    ⟨fun a b c hab hbc => Nat.le_trans hab hbc⟩
  exact List.sorted_insertionSort _ _

theorem templateTasksOf_perm (db : DB) (tid : Nat) :
    (templateTasksOf db tid).Perm
      (db.templateTasks.filter (fun tt => tt.template == tid)) :=
  List.perm_insertionSort _ _

/-- With distinct task primary keys, looking a Task up by the id of a known
row returns that row's title. -/
theorem taskTitle_eq_of_mem :
    ∀ (ts : List Task), (ts.map Task.id).Nodup →
      ∀ t ∈ ts, ts.find? (fun u => u.id == t.id) = some t := by
  intro ts
  induction ts with
  | nil => intro _ t ht; simp at ht
  | cons a rest ih =>
    intro hnd t ht
    simp only [List.map_cons, List.nodup_cons] at hnd
    rcases List.mem_cons.mp ht with rfl | htrest
    · simp [List.find?_cons]
    · have hne : (a.id == t.id) = false := by
        simp only [beq_eq_false_iff_ne, ne_eq]
        intro heq
        exact hnd.1 (heq ▸ List.mem_map_of_mem Task.id htrest)
      simp only [List.find?_cons, hne]
      exact ih hnd.2 t htrest

/-- Reduction of `DailyTaskListCreateView.post` on the success path: all
pre-checks pass, the list row is inserted, and the template is expanded. -/
theorem createPost_success_eq (db : DB) (u D tid : Nat) (tmpl : Template)
    (htid : tid ≠ 0)
    (hno : ∀ l ∈ db.dailyTaskLists, ¬(l.user = u ∧ l.date = D))
    (hfind : db.templates.find? (fun t => t.id == tid && t.user == u) = some tmpl) :
    dailyTaskListCreatePost db u (some D) (some tid) =
      (createDailyTasks
        { db with
          dailyTaskLists := db.dailyTaskLists ++
            [{ id := db.nextId, user := u, date := D, template := tmpl.id }]
          nextId := db.nextId + 1 }
        { id := db.nextId, user := u, date := D, template := tmpl.id },
       .created db.nextId) := by
  have hpred := List.find?_some hfind
  simp only [Bool.and_eq_true, beq_iff_eq] at hpred
  have h0 : (tid == 0) = false := by simpa using htid
  have hany : (db.dailyTaskLists.any fun l => l.user == u && l.date == D) = false := by
    simp only [List.any_eq_false, Bool.and_eq_true, beq_iff_eq]
    exact hno
  have huser : (tmpl.user != u) = false := by simp [hpred.2]
  simp only [dailyTaskListCreatePost, h0, Bool.false_eq_true, if_false, hany, hfind,
    huser]

/-- Claim C1: materializing a template `tid` of user `u` for a date `D` with
no existing schedule creates exactly one DailyTaskList and one DailyTask per
TemplateTask of the template, processed in ascending TemplateTask `order`,
each copying the source Task's current title, due on `D`, owned by `u`, not
adhoc, not completed, with order ten times the source TemplateTask's order. -/
theorem materialize_expands_template (db : DB) (u D tid : Nat) (tmpl : Template)
    (htid : tid ≠ 0)
    (hno : ∀ l ∈ db.dailyTaskLists, ¬(l.user = u ∧ l.date = D))
    (hfind : db.templates.find? (fun t => t.id == tid && t.user == u) = some tmpl)
    (hnd : (db.tasks.map Task.id).Nodup) :
    ∃ (newList : DailyTaskList) (newTasks : List DailyTask),
      (dailyTaskListCreatePost db u (some D) (some tid)).2 = .created newList.id ∧
      newList.user = u ∧ newList.date = D ∧ newList.template = tid ∧
      (dailyTaskListCreatePost db u (some D) (some tid)).1.dailyTaskLists =
        db.dailyTaskLists ++ [newList] ∧
      (dailyTaskListCreatePost db u (some D) (some tid)).1.dailyTasks =
        db.dailyTasks ++ newTasks ∧
      newTasks.length =
        (db.templateTasks.filter (fun tt => tt.template == tid)).length ∧
      List.Pairwise (fun a b : TemplateTask => a.order ≤ b.order)
        (templateTasksOf db tid) ∧
      (templateTasksOf db tid).Perm
        (db.templateTasks.filter (fun tt => tt.template == tid)) ∧
      List.Forall₂ (fun tt dt =>
          dt.title = taskTitle db tt.task ∧
          (∀ srcTask ∈ db.tasks, srcTask.id = tt.task → dt.title = srcTask.title) ∧
          dt.due_date = D ∧ dt.user = u ∧ dt.is_adhoc = false ∧
          dt.completed = false ∧ dt.completed_at = none ∧
          dt.order = tt.order * 10 ∧ dt.template_task = some tt.id ∧
          dt.daily_task_list = some newList.id)
        (templateTasksOf db tid) newTasks := by
  have hpred := List.find?_some hfind
  simp only [Bool.and_eq_true, beq_iff_eq] at hpred
  have hred := createPost_success_eq db u D tid tmpl htid hno hfind
  set l : DailyTaskList :=
    { id := db.nextId, user := u, date := D, template := tmpl.id } with hl
  set db1 : DB :=
    { db with dailyTaskLists := db.dailyTaskLists ++ [l], nextId := db.nextId + 1 }
    with hdb1
  have hfold : createDailyTasks db1 l =
      { db1 with
        dailyTasks := db1.dailyTasks ++ mkRun db1 l (templateTasksOf db1 l.template) db1.nextId
        nextId := db1.nextId + (templateTasksOf db1 l.template).length } := by
    unfold createDailyTasks
    exact foldl_dailyTaskStep db1 l (templateTasksOf db1 l.template) db1
  have htts : templateTasksOf db1 l.template = templateTasksOf db tid := by
    simp only [hdb1, hl, templateTasksOf, hpred.1]
  refine ⟨l, mkRun db1 l (templateTasksOf db tid) db1.nextId, ?_, rfl, rfl, hpred.1, ?_, ?_, ?_, ?_, ?_, ?_⟩
  · rw [hred]
  · rw [hred]
    simp only [hfold, htts]
  · rw [hred]
    simp only [hfold, htts]
  · have := (mkRun_spec db1 l (templateTasksOf db tid) db1.nextId).length_eq
    rw [← this, (templateTasksOf_perm db tid).length_eq]
  · exact templateTasksOf_sorted db tid
  · exact templateTasksOf_perm db tid
  · refine (mkRun_spec db1 l (templateTasksOf db tid) db1.nextId).imp ?_
    intro tt dt hr
    obtain ⟨htitle, hdue, huser, hadhoc, hcmpl, hat, horder, htt, hdl⟩ := hr
    have htitle' : dt.title = taskTitle db tt.task := htitle
    refine ⟨htitle', ?_, hdue, huser, hadhoc, hcmpl, hat, horder, htt, hdl⟩
    intro srcTask hsrc hid
    have hf := taskTitle_eq_of_mem db.tasks hnd srcTask hsrc
    rw [htitle', taskTitle, ← hid, hf]
    rfl

/-- Claim C1 witness: materializing the two-task "Morning" template of user
1 for date 5 on the concrete store succeeds and creates exactly two daily
tasks. -/
theorem materialize_expands_template_witness :
    ∃ (newList : DailyTaskList) (newTasks : List DailyTask),
      (dailyTaskListCreatePost exDb 1 (some 5) (some 10)).2 =
        MatResp.created newList.id ∧
      newTasks.length = 2 ∧
      (dailyTaskListCreatePost exDb 1 (some 5) (some 10)).1.dailyTasks =
        exDb.dailyTasks ++ newTasks := by
  obtain ⟨nl, nt, h1, h2, h3, h4, h5, h6, h7, h8, h9, h10⟩ :=
    materialize_expands_template exDb 1 5 10 exTmplMorning (by decide)
      (by simp [exDb]) (by rfl) (by decide)
  refine ⟨nl, nt, h1, ?_, h6⟩
  rw [h7]
  rfl

/-! ### C3: materialization is not atomic (code bug) -/

/-- Claim C3 (refuted by the code — code bug): the "Morning" template has
two TemplateTasks, and when the insert of the second DailyTask fails during
materialization, the committed store still contains the new DailyTaskList
row and the first DailyTask: the expansion is not all-or-nothing, because no
transaction wraps `DailyTaskList.save` / `_create_daily_tasks` (the spec
requires a single atomic transaction). -/
theorem materialization_not_atomic :
    (templateTasksOf exDb 10).length = 2 ∧
    (materializeFailingAt exDb 1 5 10 1).dailyTaskLists.length = 1 ∧
    (materializeFailingAt exDb 1 5 10 1).dailyTasks.length = 1 ∧
    materializeFailingAt exDb 1 5 10 1 ≠ exDb := by
  decide

/-! ### C4: conflict checks before any write -/

def exTmplOther : Template :=
  { id := 11, user := 2, title := "Evening", weekdays := [] }

def exDb4 : DB :=
  { tasks := []
    templates := [exTmplOther]
    templateTasks := []
    dailyTaskLists := []
    dailyTasks := []
    nextId := 100 }

/-- Claim C4 counterexample: user 1 requests materialization with template
11, which belongs to user 2.  The code answers with the not-found response
(HTTP 404), which is a different failure kind from the conflict response the
claim asserts (the duplicate-date conflict, HTTP 400); the store is
untouched. -/
theorem materialize_wrong_user_template_not_conflict :
    (dailyTaskListCreatePost exDb4 1 (some 5) (some 11)).2 =
      MatResp.errTemplateNotFound ∧
    MatResp.errTemplateNotFound.status = 404 ∧
    MatResp.errTemplateNotFound ≠ MatResp.errAlreadyExists ∧
    MatResp.errAlreadyExists.status = 400 ∧
    (dailyTaskListCreatePost exDb4 1 (some 5) (some 11)).1 = exDb4 := by
  decide

/-- Claim C4 (amended): a materialization request fails before any write —
with the conflict response when a DailyTaskList for `(u, D)` already exists,
and with the not-found response when the referenced template does not belong
to `u`; after a successful materialization a second attempt for the same
`(u, D)` fails with the conflict response, changes nothing, and exactly one
DailyTaskList for `(u, D)` exists. -/
theorem materialize_conflict_and_uniqueness (db : DB) (u D tid : Nat)
    (htid : tid ≠ 0) :
    ((∃ l ∈ db.dailyTaskLists, l.user = u ∧ l.date = D) →
        dailyTaskListCreatePost db u (some D) (some tid) =
          (db, .errAlreadyExists)) ∧
    ((∀ l ∈ db.dailyTaskLists, ¬(l.user = u ∧ l.date = D)) →
      db.templates.find? (fun t => t.id == tid && t.user == u) = none →
        dailyTaskListCreatePost db u (some D) (some tid) =
          (db, .errTemplateNotFound)) ∧
    ∀ tmpl : Template,
      (∀ l ∈ db.dailyTaskLists, ¬(l.user = u ∧ l.date = D)) →
      db.templates.find? (fun t => t.id == tid && t.user == u) = some tmpl →
        (dailyTaskListCreatePost db u (some D) (some tid)).2 =
          .created db.nextId ∧
        dailyTaskListCreatePost
            (dailyTaskListCreatePost db u (some D) (some tid)).1 u
            (some D) (some tid) =
          ((dailyTaskListCreatePost db u (some D) (some tid)).1,
            .errAlreadyExists) ∧
        (dailyTaskListCreatePost db u (some D) (some tid)).1.dailyTaskLists.countP
            (fun l => l.user == u && l.date == D) =
          db.dailyTaskLists.countP (fun l => l.user == u && l.date == D) + 1 := by
  have h0 : (tid == 0) = false := by simpa using htid
  refine ⟨?_, ?_, ?_⟩
  · rintro ⟨l, hl, hu, hd⟩
    have hany : (db.dailyTaskLists.any fun l => l.user == u && l.date == D) = true := by
      simp only [List.any_eq_true]
      exact ⟨l, hl, by simp [hu, hd]⟩
    simp only [dailyTaskListCreatePost, h0, Bool.false_eq_true, if_false, hany, if_true]
  · intro hno hnone
    have hany : (db.dailyTaskLists.any fun l => l.user == u && l.date == D) = false := by
      simp only [List.any_eq_false, Bool.and_eq_true, beq_iff_eq]
      exact hno
    simp only [dailyTaskListCreatePost, h0, Bool.false_eq_true, if_false, hany, hnone]
  · intro tmpl hno hfind
    have hred := createPost_success_eq db u D tid tmpl htid hno hfind
    set l : DailyTaskList :=
      { id := db.nextId, user := u, date := D, template := tmpl.id } with hl
    set db1 : DB :=
      { db with dailyTaskLists := db.dailyTaskLists ++ [l], nextId := db.nextId + 1 }
      with hdb1
    have hfold := foldl_dailyTaskStep db1 l (templateTasksOf db1 l.template) db1
    have hlists : (dailyTaskListCreatePost db u (some D) (some tid)).1.dailyTaskLists =
        db.dailyTaskLists ++ [l] := by
      rw [hred]
      simp only [createDailyTasks, hfold]
    refine ⟨by rw [hred], ?_, ?_⟩
    · have hany2 : ((dailyTaskListCreatePost db u (some D) (some tid)).1.dailyTaskLists.any
          fun x => x.user == u && x.date == D) = true := by
        rw [hlists]
        simp only [List.any_append, List.any_cons, List.any_nil, Bool.or_eq_true]
        right
        simp [hl]
      rcases hres : dailyTaskListCreatePost db u (some D) (some tid) with ⟨db', resp⟩
      rw [hres] at hany2
      simp only [dailyTaskListCreatePost, h0, Bool.false_eq_true, if_false, hany2, if_true]
    · rw [hlists]
      have hcnt0 : db.dailyTaskLists.countP (fun x => x.user == u && x.date == D) =
          db.dailyTaskLists.countP (fun x => x.user == u && x.date == D) := rfl
      simp only [List.countP_append, List.countP_cons, List.countP_nil]
      simp [hl]

/-- Claim C4 witness: on the concrete store, materializing twice for user 1
and date 5 makes the second attempt fail with the conflict response, and
exactly one list for (1, 5) exists. -/
theorem materialize_conflict_and_uniqueness_witness :
    (dailyTaskListCreatePost (dailyTaskListCreatePost exDb 1 (some 5) (some 10)).1 1
        (some 5) (some 10)).2 = MatResp.errAlreadyExists ∧
    (dailyTaskListCreatePost exDb 1 (some 5) (some 10)).1.dailyTaskLists.countP
        (fun l => l.user == 1 && l.date == 5) = 1 := by
  obtain ⟨h1, h2, h3⟩ :=
    (materialize_conflict_and_uniqueness exDb 1 5 10 (by decide)).2.2 exTmplMorning
      (by intro l hl; simp [exDb] at hl) (by rfl)
  refine ⟨by rw [h2], by rw [h3]; rfl⟩

/-! ### C5 / C6: completion state machine and ordering -/

/-- With distinct daily-task primary keys, the owner-scoped `find?` splits
the table into a prefix and suffix that do not contain the found key. -/
theorem dailyTask_find?_split (db : DB) (pk user : Nat) (task : DailyTask)
    (hnd : (db.dailyTasks.map DailyTask.id).Nodup)
    (hfind : db.dailyTasks.find? (fun t => t.id == pk && t.user == user) = some task) :
    task.id = pk ∧ task.user = user ∧
    ∃ as bs, db.dailyTasks = as ++ task :: bs ∧
      (∀ a ∈ as, a.id ≠ pk) ∧ (∀ b ∈ bs, b.id ≠ pk) := by
  have hpred := List.find?_some hfind
  simp only [Bool.and_eq_true, beq_iff_eq] at hpred
  obtain ⟨_, as, bs, hsplit, -⟩ := List.find?_eq_some.mp hfind
  refine ⟨hpred.1, hpred.2, as, bs, hsplit, ?_, ?_⟩
  · intro a ha heq
    rw [hsplit] at hnd
    simp only [List.map_append, List.map_cons] at hnd
    rcases List.nodup_append.mp hnd with ⟨-, -, hdisj⟩
    exact hdisj (List.mem_map_of_mem DailyTask.id ha)
      (by simp [heq, hpred.1])
  · intro b hb heq
    rw [hsplit] at hnd
    simp only [List.map_append, List.map_cons] at hnd
    rcases List.nodup_append.mp hnd with ⟨-, hnd2, -⟩
    exact (List.nodup_cons.mp hnd2).1
      (by rw [hpred.1, ← heq]; exact List.mem_map_of_mem DailyTask.id hb)

/-- Saving a row whose primary key sits between two key-disjoint segments
replaces exactly that row. -/
theorem map_update_split (as bs : List DailyTask) (pk : Nat) (t0 t3 : DailyTask)
    (ha : ∀ a ∈ as, a.id ≠ pk) (hb : ∀ b ∈ bs, b.id ≠ pk)
    (h0 : t0.id = pk) (h3 : t3.id = pk) :
    (as ++ t0 :: bs).map (fun u => if u.id == t3.id then t3 else u) =
      as ++ t3 :: bs := by
  have key : ∀ (l : List DailyTask), (∀ a ∈ l, a.id ≠ pk) →
      l.map (fun u => if u.id == t3.id then t3 else u) = l := by
    intro l hl
    induction l with
    | nil => rfl
    | cons x xs ih =>
      have hx : (x.id == t3.id) = false := by
        simp only [beq_eq_false_iff_ne, ne_eq, h3]
        exact hl x (List.mem_cons_self x xs)
      simp only [List.map_cons, hx, Bool.false_eq_true, if_false]
      rw [ih (fun a ha' => hl a (List.mem_cons_of_mem x ha'))]
  rw [List.map_append, List.map_cons, key as ha, key bs hb]
  have ht0 : (t0.id == t3.id) = true := by simp [h0, h3]
  simp only [ht0, if_true]

theorem foldl_maxorder_shift :
    ∀ (l : List DailyTask) (a b : Nat),
      l.foldl (fun m u => max m u.order) (max a b) =
        max a (l.foldl (fun m u => max m u.order) b) := by
  intro l
  induction l with
  | nil => intro a b; rfl
  | cons x xs ih =>
    intro a b
    simp only [List.foldl_cons]
    rw [max_assoc, ih]

theorem foldl_maxorder_append_cons (l1 l2 : List DailyTask) (t : DailyTask) :
    (l1 ++ t :: l2).foldl (fun m u => max m u.order) 0 =
      max ((l1 ++ l2).foldl (fun m u => max m u.order) 0) t.order := by
  rw [List.foldl_append, List.foldl_append, List.foldl_cons]
  have h1 : ∀ a : Nat, List.foldl (fun m u => max m u.order) a l2 =
      max a (List.foldl (fun m u => max m u.order) 0 l2) := by
    intro a
    conv_lhs => rw [show a = max a 0 from (Nat.max_zero a).symm]
    exact foldl_maxorder_shift l2 a 0
  rw [h1 (max (List.foldl (fun m u => max m u.order) 0 l1) t.order),
    h1 (List.foldl (fun m u => max m u.order) 0 l1)]
  exact Nat.max_right_comm _ _ _

/-- The greatest order among the user's *other* incomplete adhoc tasks (the
task with key `pk` excluded), 0 when there are none: the scope the claim
says the reopen transition maximises over. -/
def maxOtherIncompleteAdhocOrder (db : DB) (user pk : Nat) : Nat :=
  (db.dailyTasks.filter (fun t =>
    t.user == user && t.is_adhoc && !t.completed && t.id != pk)).foldl
    (fun m t => max m t.order) 0

/-- After `mark_incomplete()` saves the reopened adhoc task, the Max
aggregate of `DailyTaskIncompleteView.post` sees the task itself, so it
computes the maximum of the task's own stored order and the other incomplete
adhoc orders. -/
theorem maxIncomplete_after_reopen (db : DB) (user pk : Nat) (task : DailyTask)
    (hnd : (db.dailyTasks.map DailyTask.id).Nodup)
    (hfind : db.dailyTasks.find? (fun t => t.id == pk && t.user == user) = some task)
    (hadhoc : task.is_adhoc = true) :
    maxIncompleteAdhocOrder (updateTask db (markIncomplete task)) user =
      max (maxOtherIncompleteAdhocOrder db user pk) task.order := by
  obtain ⟨hid, huser, as, bs, hsplit, ha, hb⟩ :=
    dailyTask_find?_split db pk user task hnd hfind
  have hupd : (updateTask db (markIncomplete task)).dailyTasks =
      as ++ markIncomplete task :: bs := by
    simp only [updateTask]
    rw [hsplit]
    exact map_update_split as bs pk task (markIncomplete task) ha hb hid hid
  have hcongr : ∀ (l : List DailyTask), (∀ a ∈ l, a.id ≠ pk) →
      l.filter (fun t => t.user == user && t.is_adhoc && !t.completed && t.id != pk) =
        l.filter (fun t => t.user == user && t.is_adhoc && !t.completed) := by
    intro l hl
    apply List.filter_congr
    intro a ha'
    have : (a.id != pk) = true := by simpa using hl a ha'
    simp [this]
  unfold maxIncompleteAdhocOrder maxOtherIncompleteAdhocOrder
  rw [hupd, hsplit, List.filter_append, List.filter_append,
    List.filter_cons_of_pos (by simp [markIncomplete, huser, hadhoc]),
    List.filter_cons_of_neg (by simp [hid]),
    hcongr as ha, hcongr bs hb, foldl_maxorder_append_cons]
  rfl

def exAdhocDone : DailyTask :=
  { id := 31, user := 1, daily_task_list := none, template_task := none
    title := "Call mom", due_date := 5, completed := true, completed_at := some 7
    order := 50, is_adhoc := true }

def exAdhocOpen : DailyTask :=
  { id := 32, user := 1, daily_task_list := none, template_task := none
    title := "Buy milk", due_date := 5, completed := false, completed_at := none
    order := 20, is_adhoc := true }

def exDb5 : DB :=
  { tasks := [], templates := [], templateTasks := [], dailyTaskLists := []
    dailyTasks := [exAdhocDone, exAdhocOpen], nextId := 200 }

/-- Claim C5 counterexample: task 31 is a completed adhoc task stored with
order 50 (reachable: the generic PUT endpoint completes without zeroing the
order, and can set any order); the only incomplete adhoc task of its user
has order 20, so the claim says reopening assigns order 20 + 10 = 30 — but
the code marks the task incomplete *before* running the Max aggregate, so
the aggregate sees the task's own order 50 and assigns 60. -/
theorem reopen_order_counterexample :
    maxIncompleteAdhocOrder exDb5 1 + 10 = 30 ∧
    ((dailyTaskIncompletePost exDb5 1 31).2.map DailyTask.order) = some 60 := by
  decide

/-- Reduction of `DailyTaskCompleteView.post` when the lookup succeeds. -/
theorem dailyTaskCompletePost_some (db : DB) (user pk now : Nat) (task : DailyTask)
    (hfind : db.dailyTasks.find? (fun t => t.id == pk && t.user == user) = some task) :
    dailyTaskCompletePost db user pk now =
      (updateTask db
        (markComplete (if task.is_adhoc then { task with order := 0 } else task) now),
       some (markComplete (if task.is_adhoc then { task with order := 0 } else task) now)) := by
  unfold dailyTaskCompletePost
  rw [hfind]

/-- Reduction of `DailyTaskIncompleteView.post` when the lookup succeeds. -/
theorem dailyTaskIncompletePost_some (db : DB) (user pk : Nat) (task : DailyTask)
    (hfind : db.dailyTasks.find? (fun t => t.id == pk && t.user == user) = some task) :
    dailyTaskIncompletePost db user pk =
      (updateTask (updateTask db (markIncomplete task))
        (if (markIncomplete task).is_adhoc then
          { markIncomplete task with
            order := maxIncompleteAdhocOrder (updateTask db (markIncomplete task)) user + 10 }
         else markIncomplete task),
       some (if (markIncomplete task).is_adhoc then
          { markIncomplete task with
            order := maxIncompleteAdhocOrder (updateTask db (markIncomplete task)) user + 10 }
         else markIncomplete task)) := by
  unfold dailyTaskIncompletePost
  rw [hfind]

/-- Claim C5 (amended): completing an adhoc task sets completed, the
completion timestamp and order 0; reopening an adhoc task clears both and
sets order to (the maximum of the task's own stored order and the orders of
the user's other incomplete adhoc tasks, 0 if none) + 10 — the aggregate
runs after the task is saved as incomplete, so it includes the task itself —
which in particular strictly exceeds the task's pre-reopen order, so the
pre-completion position is never restored (reopened tasks go to the back of
the queue). -/
theorem adhoc_transitions_spec (db : DB) (user pk now : Nat) (task : DailyTask)
    (hnd : (db.dailyTasks.map DailyTask.id).Nodup)
    (hfind : db.dailyTasks.find? (fun t => t.id == pk && t.user == user) = some task)
    (hadhoc : task.is_adhoc = true) :
    (dailyTaskCompletePost db user pk now).2 =
      some { task with order := 0, completed := true, completed_at := some now } ∧
    (dailyTaskIncompletePost db user pk).2 =
      some { task with
             completed := false
             completed_at := none
             order := max (maxOtherIncompleteAdhocOrder db user pk) task.order + 10 } ∧
    task.order < max (maxOtherIncompleteAdhocOrder db user pk) task.order + 10 := by
  refine ⟨?_, ?_, by omega⟩
  · rw [dailyTaskCompletePost_some db user pk now task hfind]
    simp only [hadhoc, if_true]
    rfl
  · rw [dailyTaskIncompletePost_some db user pk task hfind]
    have hadhoc1 : (markIncomplete task).is_adhoc = true := hadhoc
    have hmax := maxIncomplete_after_reopen db user pk task hnd hfind hadhoc
    simp only [hadhoc1, if_true, hmax]
    simp [markIncomplete, hadhoc]

/-- Claim C5 witness: on the concrete store, completing the open adhoc task
zeroes its order and stamps it, and reopening the completed adhoc task 31
(own order 50, other incomplete max 20) yields order 60 = max 20 50 + 10. -/
theorem adhoc_transitions_spec_witness :
    (dailyTaskCompletePost exDb5 1 32 99).2 =
      some { exAdhocOpen with order := 0, completed := true, completed_at := some 99 } ∧
    (dailyTaskIncompletePost exDb5 1 31).2 =
      some { exAdhocDone with completed := false, completed_at := none, order := 60 } := by
  obtain ⟨h1, -, -⟩ :=
    adhoc_transitions_spec exDb5 1 32 99 exAdhocOpen (by decide) (by decide) (by decide)
  obtain ⟨-, h2, -⟩ :=
    adhoc_transitions_spec exDb5 1 31 99 exAdhocDone (by decide) (by decide) (by decide)
  refine ⟨h1, ?_⟩
  rw [h2]
  decide

/-- Claim C6: completing or reopening a non-adhoc (templated) daily task
returns the task with its order untouched, and leaves the order of every
stored daily task (the target included) unchanged. -/
theorem nonadhoc_transitions_preserve_order (db : DB) (user pk now : Nat)
    (task : DailyTask)
    (hnd : (db.dailyTasks.map DailyTask.id).Nodup)
    (hfind : db.dailyTasks.find? (fun t => t.id == pk && t.user == user) = some task)
    (hadhoc : task.is_adhoc = false) :
    (dailyTaskCompletePost db user pk now).2 = some (markComplete task now) ∧
    (markComplete task now).order = task.order ∧
    List.Forall₂ (fun t t' => t'.order = t.order) db.dailyTasks
      (dailyTaskCompletePost db user pk now).1.dailyTasks ∧
    (dailyTaskIncompletePost db user pk).2 = some (markIncomplete task) ∧
    (markIncomplete task).order = task.order ∧
    List.Forall₂ (fun t t' => t'.order = t.order) db.dailyTasks
      (dailyTaskIncompletePost db user pk).1.dailyTasks := by
  obtain ⟨hid, huser, as, bs, hsplit, ha, hb⟩ :=
    dailyTask_find?_split db pk user task hnd hfind
  have hframe : ∀ t3 : DailyTask, t3.order = task.order →
      List.Forall₂ (fun t t' => t'.order = t.order) db.dailyTasks
        (as ++ t3 :: bs) := by
    intro t3 horder
    rw [hsplit]
    refine List.rel_append ?_ (List.Forall₂.cons horder ?_)
    · exact List.forall₂_same.mpr (fun x _ => rfl)
    · exact List.forall₂_same.mpr (fun x _ => rfl)
  have hadhoc1 : (markIncomplete task).is_adhoc = false := hadhoc
  have hc := dailyTaskCompletePost_some db user pk now task hfind
  simp only [hadhoc, Bool.false_eq_true, if_false] at hc
  have hi := dailyTaskIncompletePost_some db user pk task hfind
  simp only [hadhoc1, Bool.false_eq_true, if_false] at hi
  have hupd1 : (updateTask db (markComplete task now)).dailyTasks =
      as ++ markComplete task now :: bs := by
    show db.dailyTasks.map _ = _
    rw [hsplit]
    exact map_update_split as bs pk task (markComplete task now) ha hb hid hid
  have hinc0 : (updateTask db (markIncomplete task)).dailyTasks =
      as ++ markIncomplete task :: bs := by
    show db.dailyTasks.map _ = _
    rw [hsplit]
    exact map_update_split as bs pk task (markIncomplete task) ha hb hid hid
  have hinc1 : (updateTask (updateTask db (markIncomplete task))
      (markIncomplete task)).dailyTasks = as ++ markIncomplete task :: bs := by
    show (updateTask db (markIncomplete task)).dailyTasks.map _ = _
    rw [hinc0]
    exact map_update_split as bs pk (markIncomplete task) (markIncomplete task)
      ha hb hid hid
  refine ⟨?_, rfl, ?_, ?_, rfl, ?_⟩
  · rw [hc]
  · rw [hc]
    rw [hupd1]
    exact hframe (markComplete task now) rfl
  · rw [hi]
  · rw [hi]
    rw [hinc1]
    exact hframe (markIncomplete task) rfl

def exTemplated : DailyTask :=
  { id := 41, user := 1, daily_task_list := some 90, template_task := some 20
    title := "Meditate", due_date := 5, completed := false, completed_at := none
    order := 10, is_adhoc := false }

def exDb6 : DB :=
  { tasks := [], templates := [], templateTasks := [], dailyTaskLists := []
    dailyTasks := [exTemplated], nextId := 300 }

/-- Claim C6 witness: completing and reopening the templated daily task 41
(order 10) leaves its order at 10. -/
theorem nonadhoc_transitions_preserve_order_witness :
    ((dailyTaskCompletePost exDb6 1 41 99).2.map DailyTask.order) = some 10 ∧
    ((dailyTaskIncompletePost exDb6 1 41).2.map DailyTask.order) = some 10 := by
  obtain ⟨h1, -, -, h4, -, -⟩ :=
    nonadhoc_transitions_preserve_order exDb6 1 41 99 exTemplated
      (by decide) (by decide) (by decide)
  constructor
  · rw [h1]
    decide
  · rw [h4]
    decide

/-! ### C7: a tasks payload always deletes and recreates the join rows -/

theorem createTemplateTasksLoop_spec (user templateId : Nat) :
    ∀ (payload : List TaskPayload) (db : DB),
      (∀ p ∈ payload, ∃ tid ord, p.task_id = some tid ∧ p.order = some ord ∧
          tid ≠ 0 ∧ ∃ t ∈ db.tasks, t.id = tid ∧ t.user = user) →
      ∃ newRows : List TemplateTask,
        createTemplateTasksLoop user templateId payload db =
          ({ db with
             templateTasks := db.templateTasks ++ newRows
             nextId := db.nextId + payload.length }, true) ∧
        newRows.length = payload.length ∧
        ∀ r ∈ newRows, r.template = templateId ∧ db.nextId ≤ r.id := by
  intro payload
  induction payload with
  | nil =>
    intro db hp
    refine ⟨[], ?_, rfl, by simp⟩
    simp [createTemplateTasksLoop]
  | cons p rest ih =>
    intro db hp
    obtain ⟨tid, ord, htid, hord, hne, t, ht, hidt, husert⟩ :=
      hp p (List.mem_cons_self p rest)
    have hfindsome : (db.tasks.find? (fun u => u.id == tid && u.user == user)).isSome := by
      rw [List.find?_isSome]
      exact ⟨t, ht, by simp [hidt, husert]⟩
    obtain ⟨t0, ht0⟩ := Option.isSome_iff_exists.mp hfindsome
    have hrest : ∀ q ∈ rest, ∃ tid2 ord2, q.task_id = some tid2 ∧
        q.order = some ord2 ∧ tid2 ≠ 0 ∧
        ∃ t2 ∈ ({ db with
            templateTasks := db.templateTasks ++ [⟨db.nextId, templateId, tid, ord⟩]
            nextId := db.nextId + 1 } : DB).tasks, t2.id = tid2 ∧ t2.user = user := by
      intro q hq
      exact hp q (List.mem_cons_of_mem p hq)
    obtain ⟨rows, heq, hlen, hprop⟩ := ih _ hrest
    refine ⟨⟨db.nextId, templateId, tid, ord⟩ :: rows, ?_, by simp [hlen], ?_⟩
    · have h0 : (tid == 0) = false := by simpa using hne
      simp only [createTemplateTasksLoop, htid, hord, h0, Bool.false_eq_true, if_false,
        ht0]
      rw [heq]
      cases db
      simp only [Prod.mk.injEq, DB.mk.injEq, List.append_assoc, List.singleton_append,
        List.length_cons, and_true, true_and]
      omega
    · intro r hr
      rcases List.mem_cons.mp hr with rfl | hr2
      · exact ⟨rfl, Nat.le_refl _⟩
      · obtain ⟨h1, h2⟩ := hprop r hr2
        exact ⟨h1, Nat.le_of_succ_le h2⟩

theorem clearRef_frame (deadIds : List Nat) (dt : DailyTask) :
    (clearRef deadIds dt).id = dt.id ∧ (clearRef deadIds dt).title = dt.title ∧
    (clearRef deadIds dt).completed = dt.completed ∧
    (clearRef deadIds dt).order = dt.order ∧ (clearRef deadIds dt).user = dt.user ∧
    (clearRef deadIds dt).due_date = dt.due_date ∧
    (clearRef deadIds dt).completed_at = dt.completed_at ∧
    (clearRef deadIds dt).is_adhoc = dt.is_adhoc ∧
    (clearRef deadIds dt).daily_task_list = dt.daily_task_list := by
  unfold clearRef
  split
  · split <;> simp
  · simp

theorem clearRef_ref_some (deadIds : List Nat) (dt : DailyTask) (ttid : Nat)
    (h : dt.template_task = some ttid) :
    (clearRef deadIds dt).template_task =
      (if deadIds.contains ttid then none else some ttid) := by
  unfold clearRef
  split
  · split <;> simp_all
  · simp_all

theorem clearRef_ref_none (deadIds : List Nat) (dt : DailyTask)
    (h : dt.template_task = none) : (clearRef deadIds dt).template_task = none := by
  unfold clearRef
  rw [h]
  exact h

/-- Claim C7: a template update whose body supplies a tasks payload — even
one re-specifying the same tasks at the same orders — deletes every existing
TemplateTask row of the template and recreates fresh rows; every previously
materialized DailyTask that referenced one of the old rows has its
back-reference set to null (all its other fields untouched), and afterwards
no daily task contributes to the completion-stats aggregation of any of this
template's TemplateTask rows. -/
theorem template_put_tasks_resets_references (db : DB) (user pk : Nat)
    (tmpl : Template) (payload : List TaskPayload)
    (hfind : db.templates.find? (fun t => t.id == pk && t.user == user) = some tmpl)
    (hclean : templateClean db tmpl = none)
    (hok : ∀ p ∈ payload, ∃ tid ord, p.task_id = some tid ∧ p.order = some ord ∧
        tid ≠ 0 ∧ ∃ t ∈ db.tasks, t.id = tid ∧ t.user = user)
    (hwfTT : ∀ tt ∈ db.templateTasks, tt.id < db.nextId)
    (hwfRef : ∀ dt ∈ db.dailyTasks, ∀ ttid, dt.template_task = some ttid →
        ttid < db.nextId) :
    ∃ newRows : List TemplateTask,
      (templatePutTasks db user pk payload).2 = true ∧
      (templatePutTasks db user pk payload).1.templateTasks =
        db.templateTasks.filter (fun tt => tt.template != pk) ++ newRows ∧
      newRows.length = payload.length ∧
      (∀ r ∈ newRows, r.template = pk ∧ db.nextId ≤ r.id) ∧
      (∀ tt ∈ db.templateTasks, tt.template = pk →
        tt ∉ (templatePutTasks db user pk payload).1.templateTasks) ∧
      List.Forall₂ (fun dt dt' =>
          dt'.id = dt.id ∧ dt'.title = dt.title ∧ dt'.completed = dt.completed ∧
          dt'.order = dt.order ∧ dt'.user = dt.user ∧
          (∀ ttid, dt.template_task = some ttid →
            (∃ tt ∈ db.templateTasks, tt.template = pk ∧ tt.id = ttid) →
              dt'.template_task = none) ∧
          (∀ ttid, dt.template_task = some ttid →
            ¬(∃ tt ∈ db.templateTasks, tt.template = pk ∧ tt.id = ttid) →
              dt'.template_task = dt.template_task))
        db.dailyTasks (templatePutTasks db user pk payload).1.dailyTasks ∧
      ∀ tt' ∈ (templatePutTasks db user pk payload).1.templateTasks,
        tt'.template = pk →
          statsTotal (templatePutTasks db user pk payload).1 tt'.id = 0 := by
  have hdead : ∀ ttid : Nat,
      (((db.templateTasks.filter (fun tt => tt.template == pk)).map
        (fun tt => tt.id)).contains ttid) = true ↔
      ∃ tt ∈ db.templateTasks, tt.template = pk ∧ tt.id = ttid := by
    intro ttid
    simp only [List.elem_iff, List.mem_map, List.mem_filter, beq_iff_eq]
    constructor
    · rintro ⟨tt, ⟨hmem, htpl⟩, hid⟩
      exact ⟨tt, hmem, htpl, hid⟩
    · rintro ⟨tt, hmem, htpl, hid⟩
      exact ⟨tt, ⟨hmem, htpl⟩, hid⟩
  have hred : templatePutTasks db user pk payload =
      createTemplateTasksLoop user pk payload
        { db with
          templateTasks := db.templateTasks.filter (fun tt => tt.template != pk)
          dailyTasks := setNullTemplateTask
            ((db.templateTasks.filter (fun tt => tt.template == pk)).map
              (fun tt => tt.id)) db.dailyTasks } := by
    unfold templatePutTasks
    rw [hfind]
    dsimp only
    rw [hclean]
  obtain ⟨rows, heq, hlen, hprop⟩ :=
    createTemplateTasksLoop_spec user pk payload
      { db with
        templateTasks := db.templateTasks.filter (fun tt => tt.template != pk)
        dailyTasks := setNullTemplateTask
          ((db.templateTasks.filter (fun tt => tt.template == pk)).map
            (fun tt => tt.id)) db.dailyTasks }
      (fun p hp => hok p hp)
  have hres := hred.trans heq
  have hsucc : (templatePutTasks db user pk payload).2 = true := by rw [hres]
  have hTT : (templatePutTasks db user pk payload).1.templateTasks =
      db.templateTasks.filter (fun tt => tt.template != pk) ++ rows := by rw [hres]
  have hDT : (templatePutTasks db user pk payload).1.dailyTasks =
      setNullTemplateTask
        ((db.templateTasks.filter (fun tt => tt.template == pk)).map
          (fun tt => tt.id)) db.dailyTasks := by rw [hres]
  have hprop' : ∀ r ∈ rows, r.template = pk ∧ db.nextId ≤ r.id :=
    fun r hr => ⟨(hprop r hr).1, (hprop r hr).2⟩
  refine ⟨rows, hsucc, hTT, hlen, hprop', ?_, ?_, ?_⟩
  · intro tt htt htpl hmem
    rw [hTT] at hmem
    rcases List.mem_append.mp hmem with hm1 | hm2
    · rcases List.mem_filter.mp hm1 with ⟨-, hpred⟩
      simp [htpl] at hpred
    · have hge : db.nextId ≤ tt.id := (hprop' tt hm2).2
      have hlt := hwfTT tt htt
      omega
  · rw [hDT]
    unfold setNullTemplateTask
    refine List.forall₂_map_right_iff.mpr (List.forall₂_same.mpr ?_)
    intro dt hdt
    obtain ⟨f1, f2, f3, f4, f5, -, -, -, -⟩ := clearRef_frame
      ((db.templateTasks.filter (fun tt => tt.template == pk)).map
        (fun tt => tt.id)) dt
    refine ⟨f1, f2, f3, f4, f5, ?_, ?_⟩
    · intro ttid hsome hex
      rw [clearRef_ref_some _ dt ttid hsome]
      rw [if_pos ((hdead ttid).mpr hex)]
    · intro ttid hsome hnex
      rw [clearRef_ref_some _ dt ttid hsome, hsome]
      rw [if_neg (fun hc => hnex ((hdead ttid).mp hc))]
  · intro tt' hmem htpl
    rw [hTT] at hmem
    have hge : db.nextId ≤ tt'.id := by
      rcases List.mem_append.mp hmem with hm1 | hm2
      · rcases List.mem_filter.mp hm1 with ⟨-, hpred⟩
        simp [htpl] at hpred
      · exact (hprop' tt' hm2).2
    unfold statsTotal
    rw [hDT]
    unfold setNullTemplateTask
    rw [List.countP_eq_zero]
    intro dt' hdt'
    rcases List.mem_map.mp hdt' with ⟨dt, hdt, hfdt⟩
    rcases hcase : dt.template_task with _ | ttid
    · rw [← hfdt]
      simp [clearRef_ref_none _ dt hcase]
    · have hlt : ttid < db.nextId := hwfRef dt hdt ttid hcase
      rw [← hfdt]
      have href := clearRef_ref_some
        ((db.templateTasks.filter (fun tt => tt.template == pk)).map
          (fun tt => tt.id)) dt ttid hcase
      by_cases hc : (((db.templateTasks.filter (fun tt => tt.template == pk)).map
          (fun tt => tt.id)).contains ttid) = true
      · rw [if_pos hc] at href
        simp [href]
      · rw [if_neg hc] at href
        simp only [href, beq_iff_eq, Option.some.injEq]
        omega

def exList49 : DailyTaskList := { id := 49, user := 1, date := 5, template := 10 }

def exDaily1 : DailyTask :=
  { id := 50, user := 1, daily_task_list := some 49, template_task := some 20
    title := "Meditate", due_date := 5, completed := true, completed_at := some 6
    order := 10, is_adhoc := false }

def exDb7 : DB :=
  { tasks := [exTask1, exTask2]
    templates := [exTmplMorning]
    templateTasks := [exTT1, exTT2]
    dailyTaskLists := [exList49]
    dailyTasks := [exDaily1]
    nextId := 100 }

/-- Claim C7 witness: re-sending the same two tasks at the same orders to
the "Morning" template succeeds, and the previously materialized daily task
that referenced join row 20 ends up with a null back-reference. -/
theorem template_put_tasks_resets_references_witness :
    (templatePutTasks exDb7 1 10 [⟨some 1, some 1⟩, ⟨some 2, some 2⟩]).2 = true ∧
    ((templatePutTasks exDb7 1 10 [⟨some 1, some 1⟩, ⟨some 2, some 2⟩]).1.dailyTasks.map
      (fun dt => dt.template_task)) = [none] := by
  obtain ⟨rows, h1, -, -, -, -, -, -⟩ :=
    template_put_tasks_resets_references exDb7 1 10 exTmplMorning
      [⟨some 1, some 1⟩, ⟨some 2, some 2⟩] (by rfl) (by rfl)
      (by
        intro p hp
        rcases List.mem_cons.mp hp with rfl | hp2
        · exact ⟨1, 1, rfl, rfl, by decide, exTask1, by decide, rfl, rfl⟩
        · rcases List.mem_cons.mp hp2 with rfl | hp3
          · exact ⟨2, 2, rfl, rfl, by decide, exTask2, by decide, rfl, rfl⟩
          · simp at hp3)
      (by decide)
      (by
        intro dt hdt ttid hsome
        have hdt' : dt = exDaily1 := by simpa [exDb7] using hdt
        subst hdt'
        simp [exDaily1] at hsome
        show ttid < 100
        omega)
  exact ⟨h1, by decide⟩

/-! ### C8: deleting a Task cascades memberships, preserves daily tasks -/

/-- Claim C8: deleting a Task removes its TemplateTask memberships from
every template (and only those), while every previously materialized
DailyTask keeps all of its data unchanged except that a `template_task`
back-reference pointing at one of the deleted join rows becomes null (and
one pointing elsewhere is untouched). -/
theorem task_delete_cascade (db : DB) (user pk : Nat) (task : Task)
    (hfind : db.tasks.find? (fun t => t.id == pk && t.user == user) = some task)
    (hndTT : (db.templateTasks.map TemplateTask.id).Nodup) :
    (taskDelete db user pk).2 = true ∧
    (∀ tt ∈ (taskDelete db user pk).1.templateTasks, tt.task ≠ pk) ∧
    (∀ tt ∈ db.templateTasks, tt.task ≠ pk →
      tt ∈ (taskDelete db user pk).1.templateTasks) ∧
    List.Forall₂ (fun dt dt' =>
        dt'.id = dt.id ∧ dt'.user = dt.user ∧ dt'.title = dt.title ∧
        dt'.due_date = dt.due_date ∧ dt'.completed = dt.completed ∧
        dt'.completed_at = dt.completed_at ∧ dt'.order = dt.order ∧
        dt'.is_adhoc = dt.is_adhoc ∧ dt'.daily_task_list = dt.daily_task_list ∧
        (∀ tt ∈ db.templateTasks, dt.template_task = some tt.id →
          (tt.task = pk → dt'.template_task = none) ∧
          (tt.task ≠ pk → dt'.template_task = dt.template_task)) ∧
        (dt.template_task = none → dt'.template_task = none))
      db.dailyTasks (taskDelete db user pk).1.dailyTasks := by
  have hdead : ∀ ttid : Nat,
      (((db.templateTasks.filter (fun tt => tt.task == pk)).map
        (fun tt => tt.id)).contains ttid) = true ↔
      ∃ tt ∈ db.templateTasks, tt.task = pk ∧ tt.id = ttid := by
    intro ttid
    simp only [List.elem_iff, List.mem_map, List.mem_filter, beq_iff_eq]
    constructor
    · rintro ⟨tt, ⟨hmem, htk⟩, hid⟩
      exact ⟨tt, hmem, htk, hid⟩
    · rintro ⟨tt, hmem, htk, hid⟩
      exact ⟨tt, ⟨hmem, htk⟩, hid⟩
  have hred : taskDelete db user pk =
      ({ db with
         tasks := db.tasks.filter (fun t => t.id != pk)
         templateTasks := db.templateTasks.filter (fun tt => tt.task != pk)
         dailyTasks := setNullTemplateTask
           ((db.templateTasks.filter (fun tt => tt.task == pk)).map
             (fun tt => tt.id)) db.dailyTasks }, true) := by
    unfold taskDelete
    rw [hfind]
  have hTT : (taskDelete db user pk).1.templateTasks =
      db.templateTasks.filter (fun tt => tt.task != pk) := by rw [hred]
  have hDT : (taskDelete db user pk).1.dailyTasks =
      setNullTemplateTask
        ((db.templateTasks.filter (fun tt => tt.task == pk)).map
          (fun tt => tt.id)) db.dailyTasks := by rw [hred]
  refine ⟨by rw [hred], ?_, ?_, ?_⟩
  · intro tt hmem
    rw [hTT] at hmem
    rcases List.mem_filter.mp hmem with ⟨-, hpred⟩
    simpa using hpred
  · intro tt hmem hne
    rw [hTT]
    exact List.mem_filter.mpr ⟨hmem, by simpa using hne⟩
  · rw [hDT]
    unfold setNullTemplateTask
    refine List.forall₂_map_right_iff.mpr (List.forall₂_same.mpr ?_)
    intro dt hdt
    obtain ⟨f1, f2, f3, f4, f5, f6, f7, f8, f9⟩ := clearRef_frame
      ((db.templateTasks.filter (fun tt => tt.task == pk)).map
        (fun tt => tt.id)) dt
    refine ⟨f1, f5, f2, f6, f3, f7, f4, f8, f9, ?_, ?_⟩
    · intro tt htt hsome
      constructor
      · intro htk
        rw [clearRef_ref_some _ dt tt.id hsome]
        rw [if_pos ((hdead tt.id).mpr ⟨tt, htt, htk, rfl⟩)]
      · intro htk
        rw [clearRef_ref_some _ dt tt.id hsome, hsome]
        rw [if_neg]
        intro hc
        obtain ⟨tt2, htt2, htk2, hid2⟩ := (hdead tt.id).mp hc
        have heq2 : tt2 = tt := List.inj_on_of_nodup_map hndTT htt2 htt hid2
        rw [heq2] at htk2
        exact htk htk2
    · intro hnone
      exact clearRef_ref_none _ dt hnone

/-! ### C9: protect-on-delete for templates -/

/-- Claim C9: deleting a Template referenced by at least one DailyTaskList
fails and leaves the store — the template and its task memberships included
— completely unchanged; deleting a Template referenced by no DailyTaskList
succeeds and removes it. -/
theorem template_delete_protect (db : DB) (user pk : Nat) (tmpl : Template)
    (hfind : db.templates.find? (fun t => t.id == pk && t.user == user) = some tmpl) :
    ((∃ l ∈ db.dailyTaskLists, l.template = pk) →
      templateDelete db user pk = (db, false)) ∧
    ((∀ l ∈ db.dailyTaskLists, l.template ≠ pk) →
      (templateDelete db user pk).2 = true ∧
      ∀ t ∈ (templateDelete db user pk).1.templates, t.id ≠ pk) := by
  constructor
  · rintro ⟨l, hl, hlt⟩
    have hany : (db.dailyTaskLists.any fun l => l.template == pk) = true := by
      simp only [List.any_eq_true]
      exact ⟨l, hl, by simp [hlt]⟩
    unfold templateDelete
    rw [hfind]
    dsimp only
    rw [hany]
    rfl
  · intro hno
    have hany : (db.dailyTaskLists.any fun l => l.template == pk) = false := by
      simp only [List.any_eq_false]
      intro l hl
      simpa using hno l hl
    have hred : templateDelete db user pk =
        ({ db with
           templates := db.templates.filter (fun t => t.id != pk)
           templateTasks := db.templateTasks.filter (fun tt => tt.template != pk)
           dailyTasks := setNullTemplateTask
             ((db.templateTasks.filter (fun tt => tt.template == pk)).map
               (fun tt => tt.id)) db.dailyTasks }, true) := by
      unfold templateDelete
      rw [hfind]
      dsimp only
      rw [hany]
      rfl
    refine ⟨by rw [hred], ?_⟩
    intro t hmem
    rw [hred] at hmem
    simp only at hmem
    rcases List.mem_filter.mp hmem with ⟨-, hpred⟩
    simpa using hpred

/-- Claim C9 witness: in the store where list 49 references template 10,
deleting template 10 fails and changes nothing; in the store with no lists,
deleting template 10 succeeds. -/
theorem template_delete_protect_witness :
    templateDelete exDb7 1 10 = (exDb7, false) ∧
    (templateDelete exDb 1 10).2 = true := by
  constructor
  · exact (template_delete_protect exDb7 1 10 exTmplMorning rfl).1
      ⟨exList49, by decide, rfl⟩
  · exact ((template_delete_protect exDb 1 10 exTmplMorning rfl).2
      (by intro l hl; simp [exDb] at hl)).1

/-- Claim C8 witness: deleting task 1 ("Meditate") removes membership row
20 and keeps row 21; the materialized daily task keeps its copied title but
its back-reference becomes null. -/
theorem task_delete_cascade_witness :
    (taskDelete exDb7 1 1).2 = true ∧
    (taskDelete exDb7 1 1).1.templateTasks = [exTT2] ∧
    ((taskDelete exDb7 1 1).1.dailyTasks.map (fun dt => dt.template_task)) = [none] ∧
    ((taskDelete exDb7 1 1).1.dailyTasks.map (fun dt => dt.title)) = ["Meditate"] := by
  obtain ⟨h1, -, -, -⟩ :=
    task_delete_cascade exDb7 1 1 exTask1 (by rfl) (by decide)
  exact ⟨h1, by decide, by decide, by decide⟩

/-! ### C10: completion statistics -/

theorem completionRateOf_zero (c : Nat) : completionRateOf c 0 = 0 := by
  simp [completionRateOf]

theorem pyRound2_zero : pyRound2 0 = 0 := by
  unfold pyRound2 pyRoundInt
  norm_num

/-- Claim C10: the completion-stats response has one entry per TemplateTask
reachable from the user's templates (and nothing else); each entry's total
counts all daily tasks whose back-reference equals that TemplateTask
(regardless of list or date), its completed count is the completed subset,
and its rate is completed/total × 100 rounded to two decimals — 40.00 for 2
of 5 — and 0 when the total is 0, with no division error. -/
theorem task_completion_stats_spec (db : DB) (u : Nat) :
    (∀ tmpl ∈ db.templates, tmpl.user = u →
      ∀ tt ∈ db.templateTasks, tt.template = tmpl.id →
        statEntryFor db tmpl tt ∈ taskCompletionStats db u) ∧
    (∀ e ∈ taskCompletionStats db u,
      ∃ tmpl ∈ db.templates, tmpl.user = u ∧
        ∃ tt ∈ db.templateTasks, tt.template = tmpl.id ∧
          e = statEntryFor db tmpl tt) ∧
    (taskCompletionStats db u).length =
      ((db.templates.filter (fun t => t.user == u)).map
        (fun tmpl =>
          (db.templateTasks.filter (fun tt => tt.template == tmpl.id)).length)).sum ∧
    (∀ tmpl tt,
      (statEntryFor db tmpl tt).total_instances =
        (db.dailyTasks.filter (fun dt => dt.template_task == some tt.id)).length ∧
      (statEntryFor db tmpl tt).completed_instances =
        ((db.dailyTasks.filter (fun dt => dt.template_task == some tt.id)).filter
          (fun dt => dt.completed)).length ∧
      ((statEntryFor db tmpl tt).total_instances = 0 →
        (statEntryFor db tmpl tt).completion_rate = 0) ∧
      (0 < (statEntryFor db tmpl tt).total_instances →
        (statEntryFor db tmpl tt).completion_rate =
          pyRound2 (((statEntryFor db tmpl tt).completed_instances : Rat) /
            ((statEntryFor db tmpl tt).total_instances : Rat) * 100))) ∧
    pyRound2 (completionRateOf 2 5) = 40 ∧
    (∀ c : Nat, pyRound2 (completionRateOf c 0) = 0) := by
  refine ⟨?_, ?_, ?_, ?_, ?_, ?_⟩
  · intro tmpl hmem huser tt htt httpl
    unfold taskCompletionStats
    rw [List.mem_flatMap]
    refine ⟨tmpl, ?_, ?_⟩
    · rw [(List.perm_insertionSort _ _).mem_iff]
      exact List.mem_filter.mpr ⟨hmem, by simp [huser]⟩
    · apply List.mem_map_of_mem
      unfold templateTasksOf
      rw [(List.perm_insertionSort _ _).mem_iff]
      exact List.mem_filter.mpr ⟨htt, by simp [httpl]⟩
  · intro e he
    unfold taskCompletionStats at he
    rw [List.mem_flatMap] at he
    obtain ⟨tmpl, htmpl, he2⟩ := he
    rw [(List.perm_insertionSort _ _).mem_iff] at htmpl
    rcases List.mem_filter.mp htmpl with ⟨hmem, hu⟩
    obtain ⟨tt, htt, rfl⟩ := List.mem_map.mp he2
    unfold templateTasksOf at htt
    rw [(List.perm_insertionSort _ _).mem_iff] at htt
    rcases List.mem_filter.mp htt with ⟨htt2, htpl⟩
    exact ⟨tmpl, hmem, by simpa using hu, tt, htt2, by simpa using htpl, rfl⟩
  · unfold taskCompletionStats
    rw [List.length_flatMap]
    have hpt : ∀ tmpl ∈ List.insertionSort (fun a b : Template => a.title ≤ b.title)
        (db.templates.filter (fun t => t.user == u)),
        (List.length ∘ fun tmpl =>
          (templateTasksOf db tmpl.id).map (statEntryFor db tmpl)) tmpl =
        (fun tmpl : Template =>
          (db.templateTasks.filter (fun tt => tt.template == tmpl.id)).length) tmpl := by
      intro tmpl _
      simp only [Function.comp_apply, List.length_map]
      exact (templateTasksOf_perm db tmpl.id).length_eq
    rw [List.map_congr_left hpt]
    exact ((List.perm_insertionSort _ _).map _).sum_eq
  · intro tmpl tt
    refine ⟨List.countP_eq_length_filter _ _, ?_, ?_, ?_⟩
    · show statsCompleted db tt.id = _
      rw [← List.countP_eq_length_filter, List.countP_filter]
      unfold statsCompleted
      simp only [Bool.and_comm]
    · intro h0
      show pyRound2 (completionRateOf (statsCompleted db tt.id) (statsTotal db tt.id)) = 0
      have h0' : statsTotal db tt.id = 0 := h0
      rw [h0', completionRateOf_zero, pyRound2_zero]
    · intro hpos
      have hpos' : 0 < statsTotal db tt.id := hpos
      show pyRound2 (completionRateOf (statsCompleted db tt.id) (statsTotal db tt.id)) = _
      unfold completionRateOf
      rw [if_pos hpos']
      rfl
  · have h1 : completionRateOf 2 5 = ((2 : Nat) : Rat) / ((5 : Nat) : Rat) * 100 := by
      simp [completionRateOf]
    rw [h1]
    unfold pyRound2 pyRoundInt
    norm_num
  · intro c
    rw [completionRateOf_zero, pyRound2_zero]

def exDb10 : DB :=
  { tasks := [exTask1, exTask2]
    templates := [exTmplMorning]
    templateTasks := [exTT1, exTT2]
    dailyTaskLists := []
    dailyTasks := [
      ⟨60, 1, some 49, some 20, "Meditate", 1, true, some 1, 10, false⟩,
      ⟨61, 1, some 49, some 20, "Meditate", 2, true, some 2, 10, false⟩,
      ⟨62, 1, some 49, some 20, "Meditate", 3, false, none, 10, false⟩,
      ⟨63, 1, some 49, some 20, "Meditate", 4, false, none, 10, false⟩,
      ⟨64, 1, some 49, some 20, "Meditate", 5, false, none, 10, false⟩]
    nextId := 100 }

/-- Claim C10 witness: in a store where join row 20 generated five daily
tasks of which two are completed and join row 21 generated none, the entry
for row 20 is present with rate 40.00 and the entry for row 21 has rate 0. -/
theorem task_completion_stats_spec_witness :
    statEntryFor exDb10 exTmplMorning exTT1 ∈ taskCompletionStats exDb10 1 ∧
    (statEntryFor exDb10 exTmplMorning exTT1).completion_rate = 40 ∧
    (statEntryFor exDb10 exTmplMorning exTT2).completion_rate = 0 := by
  obtain ⟨hmem, -, -, hshape, h40, -⟩ := task_completion_stats_spec exDb10 1
  refine ⟨hmem exTmplMorning (by decide) rfl exTT1 (by decide) rfl, ?_, ?_⟩
  · have hrate := (hshape exTmplMorning exTT1).2.2.2 (by decide)
    have hc : (statEntryFor exDb10 exTmplMorning exTT1).completed_instances = 2 := by
      decide
    have ht : (statEntryFor exDb10 exTmplMorning exTT1).total_instances = 5 := by
      decide
    rw [hrate, hc, ht]
    have h1 : completionRateOf 2 5 = ((2 : Nat) : Rat) / ((5 : Nat) : Rat) * 100 := by
      simp [completionRateOf]
    rw [← h1]
    exact h40
  · exact (hshape exTmplMorning exTT2).2.2.1 (by decide)

end SereneMind
